import Mathlib

/-!
Verification of the consensus core of the substrate fragment: the BABE
pre-digest codec (`core/consensus/babe/src/digest.rs`), the srml BABE
runtime module (`srml/babe/src/lib.rs`), and the GRANDPA authority-set
change scheduler / equivocation verifier (whose implementation is absent
from the file set; those parts are modelled from the specification and
checked against the module's tests).

Bytes are modelled as `Nat` values below 256 inside `List Nat`; machine
integers are `Nat` with explicit bounds where overflow matters.
-/

namespace Substrate

/-! ### SCALE (parity-codec) primitives -/

/-- Little-endian fixed-width encoding of a `u64` (parity-codec `Encode for u64`). -/
def u64encode (n : Nat) : List Nat :=
  [n % 256, n / 256 % 256, n / 256 ^ 2 % 256, n / 256 ^ 3 % 256,
   n / 256 ^ 4 % 256, n / 256 ^ 5 % 256, n / 256 ^ 6 % 256, n / 256 ^ 7 % 256]

/-- Little-endian fixed-width encoding of a `u32` (parity-codec `Encode for u32`). -/
def u32encode (n : Nat) : List Nat :=
  [n % 256, n / 256 % 256, n / 256 ^ 2 % 256, n / 256 ^ 3 % 256]

/-- Reassemble a little-endian byte list into a natural number. -/
def fromLE : List Nat → Nat
  | [] => 0
  | b :: rest => b + 256 * fromLE rest

/-- Decode a `u64` from the head of a byte stream, returning the rest
(parity-codec `Decode for u64`: reads exactly 8 bytes, fails on fewer). -/
def u64decode (input : List Nat) : Option (Nat × List Nat) :=
  if 8 ≤ input.length then some (fromLE (input.take 8), input.drop 8) else none

/-- Decode a `u32` from the head of a byte stream, returning the rest. -/
def u32decode (input : List Nat) : Option (Nat × List Nat) :=
  if 4 ≤ input.length then some (fromLE (input.take 4), input.drop 4) else none

/-- Decode a fixed-length byte array `[u8; n]` from the head of a stream
(parity-codec array impls: raw bytes, no length prefix). -/
def arrDecode (n : Nat) (input : List Nat) : Option (List Nat × List Nat) :=
  if n ≤ input.length then some (input.take n, input.drop n) else none

/-! ### BABE pre-digest codec — `core/consensus/babe/src/digest.rs` -/

/-- `schnorrkel::vrf::VRFOutput`: a 32-byte Ristretto point.  The curve
arithmetic lives in the external `schnorrkel` crate; the embedding keeps
the raw bytes and treats point validity as a parameter `valid`
(see `VRFOutput.from_bytes`). -/
structure VRFOutput where
  bytes : List Nat
deriving DecidableEq, Repr

/-- `schnorrkel::vrf::VRFProof`: a 64-byte proof (two scalars). -/
structure VRFProof where
  bytes : List Nat
deriving DecidableEq, Repr

/-- Model of `VRFOutput::from_bytes` from the external `schnorrkel` crate:
succeeds exactly when the 32 bytes are a valid point of the curve group,
the validity test being the parameter `valid`. -/
def VRFOutput.from_bytes (valid : List Nat → Bool) (b : List Nat) : Option VRFOutput :=
  if b.length = 32 ∧ valid b then some ⟨b⟩ else none

/-- Model of `VRFProof::from_bytes` from the external `schnorrkel` crate:
succeeds exactly when the 64 bytes are two valid scalars, the validity
test being the parameter `valid`. -/
def VRFProof.from_bytes (valid : List Nat → Bool) (b : List Nat) : Option VRFProof :=
  if b.length = 64 ∧ valid b then some ⟨b⟩ else none

/-- `BabePreDigest` (digest.rs): VRF output, VRF proof, authority index and
slot number. -/
structure BabePreDigest where
  vrf_output : VRFOutput
  proof : VRFProof
  index : Nat
  slot_num : Nat
deriving DecidableEq, Repr

/-- Modelled from the spec: `babe_primitives::AuthorityIndex` is defined
outside the given file set; the spec describes the author index as a
fixed-width unsigned integer alongside the 64-bit slot number, so it is
modelled as a `u64` (8 bytes, little endian). -/
def authorityIndexEncode (n : Nat) : List Nat := u64encode n

/-- Modelled from the spec: decoding counterpart of `authorityIndexEncode`. -/
def authorityIndexDecode (input : List Nat) : Option (Nat × List Nat) := u64decode input

/-- `Encode for BabePreDigest` (digest.rs lines 43-53): encode the raw tuple
`(*vrf_output.as_bytes(), proof.to_bytes(), index, slot_num)`; parity-codec
encodes a tuple as the concatenation of the encodings of its fields. -/
def BabePreDigest.encode (d : BabePreDigest) : List Nat :=
  d.vrf_output.bytes ++ d.proof.bytes ++ authorityIndexEncode d.index ++ u64encode d.slot_num

/-- `Decode for BabePreDigest` (digest.rs lines 55-69): decode the raw tuple
`([u8; 32], [u8; 64], AuthorityIndex, SlotNumber)`, then rebuild the VRF
objects via `from_bytes`, failing if either is not a valid curve element. -/
def BabePreDigest.decode (validOut validProof : List Nat → Bool) (input : List Nat) :
    Option BabePreDigest :=
  match arrDecode 32 input with
  | none => none
  | some (output, r1) =>
    match arrDecode 64 r1 with
    | none => none
    | some (proofBytes, r2) =>
      match authorityIndexDecode r2 with
      | none => none
      | some (index, r3) =>
        match u64decode r3 with
        | none => none
        | some (slot_num, _) =>
          match VRFProof.from_bytes validProof proofBytes with
          | none => none
          | some proof =>
            match VRFOutput.from_bytes validOut output with
            | none => none
            | some vrf_output => some ⟨vrf_output, proof, index, slot_num⟩

/-- A digest whose VRF fields are well-formed curve elements of the right
byte lengths, and whose integers fit their machine widths. -/
def BabePreDigest.wellFormed (validOut validProof : List Nat → Bool) (d : BabePreDigest) : Prop :=
  d.vrf_output.bytes.length = 32 ∧ validOut d.vrf_output.bytes = true ∧
  d.proof.bytes.length = 64 ∧ validProof d.proof.bytes = true ∧
  d.index < 2 ^ 64 ∧ d.slot_num < 2 ^ 64

/-! ### srml BABE module — `srml/babe/src/lib.rs` -/

/-- `BABE_ENGINE_ID = *b"BABE"` (from `babe_primitives`). -/
def BABE_ENGINE_ID : List Nat := [66, 65, 66, 69]

/-- A block-header digest item; only the shape needed by
`process_inherent_digests` is modelled (`as_pre_runtime` yields the engine
id and payload of a `PreRuntime` item and nothing else). -/
inductive DigestItem where
  | preRuntime (engine : List Nat) (data : List Nat)
  | consensus (engine : List Nat) (data : List Nat)
  | other (data : List Nat)
deriving DecidableEq, Repr

/-- `DigestItem::as_pre_runtime`. -/
def DigestItem.as_pre_runtime : DigestItem → Option (List Nat × List Nat)
  | .preRuntime engine data => some (engine, data)
  | _ => none

/-- Rust `copy_from_slice` of `src` into `dst[start .. start+src.length]`. -/
def copySlice (dst : List Nat) (start : Nat) (src : List Nat) : List Nat :=
  dst.take start ++ src ++ dst.drop (start + src.length)

/-- `Module::deposit_vrf_output` (lib.rs lines 172-178): build a 64-byte
buffer `arr` holding the current `Randomness` value in `arr[0..32]` and the
VRF output in `arr[32..64]`, and store `blake2_256(arr)` as the new
`Randomness`.  `blake2_256` is `runtime_io`'s hash, modelled as the
parameter `blake2_256`. -/
def deposit_vrf_output (blake2_256 : List Nat → List Nat)
    (randomness vrf_output : List Nat) : List Nat :=
  let arr := List.replicate 64 0
  let arr := copySlice arr 0 randomness
  let arr := copySlice arr 32 vrf_output
  blake2_256 arr

/-- The inline tuple decode in `process_inherent_digests` (lib.rs lines
191-196): `([u8; VRF_OUTPUT_LENGTH], [u8; VRF_PROOF_LENGTH],
[u8; PUBLIC_KEY_LENGTH], u64)`, i.e. 32 + 64 + 32 + 8 bytes read from the
front of the payload (parity-codec reads a prefix and ignores trailing
bytes). -/
def srmlInlineDecode (input : List Nat) :
    Option (List Nat × List Nat × List Nat × Nat) :=
  match arrDecode 32 input with
  | none => none
  | some (vrf_output, r1) =>
    match arrDecode 64 r1 with
    | none => none
    | some (vrf_proof, r2) =>
      match arrDecode 32 r2 with
      | none => none
      | some (author, r3) =>
        match u64decode r3 with
        | none => none
        | some (slot_num, _) => some (vrf_output, vrf_proof, author, slot_num)

/-- The decodable BABE-tagged pre-runtime entries of a digest-log list:
the two `filter_map` stages of `process_inherent_digests`. -/
def babeDigests (logs : List DigestItem) :
    List (List Nat × List Nat × List Nat × Nat) :=
  (logs.filterMap DigestItem.as_pre_runtime).filterMap
    (fun ed => if ed.1 = BABE_ENGINE_ID then srmlInlineDecode ed.2 else none)

/-- The `for` loop of `process_inherent_digests` over the decoded entries:
`assert!(is_first_babe_digest)` panics on a second entry, each entry's VRF
output is folded into the randomness, and the final
`assert!(!is_first_babe_digest)` panics when no entry was seen.  A panic
aborts block processing and is modelled as `none`. -/
def processLoop (blake2_256 : List Nat → List Nat)
    (entries : List (List Nat × List Nat × List Nat × Nat))
    (is_first : Bool) (randomness : List Nat) : Option (List Nat) :=
  match entries with
  | [] => if is_first then none else some randomness
  | e :: rest =>
    if is_first then
      processLoop blake2_256 rest false (deposit_vrf_output blake2_256 randomness e.1)
    else none

/-- `Module::process_inherent_digests` (lib.rs lines 180-200), acting on the
`Randomness` storage value; `none` models an assertion failure (fatal for
the block). -/
def process_inherent_digests (blake2_256 : List Nat → List Nat)
    (logs : List DigestItem) (randomness : List Nat) : Option (List Nat) :=
  processLoop blake2_256 (babeDigests logs) true randomness

/-- The largest `u64`. -/
def U64MAX : Nat := 2 ^ 64 - 1

/-- `u64::saturating_mul` on `u64`-bounded naturals. -/
def saturatingMul64 (a b : Nat) : Nat := min (a * b) U64MAX

/-- `Module::slot_duration` (lib.rs lines 159-163): double the timestamp
module's minimum block period (`T::Moment` is a `u64`-like integer;
`saturating_mul` saturates at the `u64` maximum). -/
def slot_duration (minimum_period : Nat) : Nat := saturatingMul64 minimum_period 2

/-- The timestamp module's `Call`, as far as `check_inherent` inspects it. -/
inductive TimestampCall where
  | set (timestamp : Nat)
  | otherCall
deriving DecidableEq, Repr

/-- `Module::check_inherent` (lib.rs lines 239-252): non-`set` calls pass;
for `set(timestamp)`, compute `timestamp / slot_duration` and compare with
the slot number stored under the `"babeslot"` inherent-data key (`none`
models absent data, an error).  `Except.error` is the fatal error variant
(`MakeFatalError`). -/
def check_inherent (minimum_period : Nat) (call : TimestampCall)
    (babeslot_data : Option Nat) : Except String Unit :=
  match call with
  | .otherCall => Except.ok ()
  | .set timestamp =>
    match babeslot_data with
    | none => Except.error "BABE inherent data not found"
    | some seal_slot =>
      if timestamp / slot_duration minimum_period = seal_slot then Except.ok ()
      else Except.error "timestamp set in block does not match slot in seal"

/-! ### GRANDPA authority-set change scheduler

`srml/grandpa/src/lib.rs` is absent from the file set; only its tests are
present.  The scheduler is therefore modelled from the specification
(§4.3 of spec.md) and checked against the behaviour asserted by
`srml/grandpa/src/tests.rs`. -/

/-- `StoredPendingChange` (spec §3 PendingChange): the scheduled change,
with `effective_at = scheduled_at + delay` and the optional forcing
height. -/
structure StoredPendingChange where
  scheduled_at : Nat
  delay : Nat
  next_authorities : List (Nat × Nat)
  forced : Option Nat
deriving DecidableEq, Repr

/-- The scheduler's persisted state (spec §4.3): the optional pending
change, the optional `NextForced` block number, and the current authority
set, each `(AuthorityId, Weight)` modelled as a pair of naturals. -/
structure GrandpaState where
  pendingChange : Option StoredPendingChange
  nextForced : Option Nat
  authorities : List (Nat × Nat)
deriving DecidableEq, Repr

/-- The scheduler's error type (spec §4.3). -/
inductive SchedulerError where
  | ChangeAlreadyPending
  | TooSoon
deriving DecidableEq, Repr

/-- Modelled from the spec: `Module::schedule_change` of the GRANDPA module
(implementation absent from the file set), invoked at current block `C`.
Per spec §4.3: fail with `ChangeAlreadyPending` if a change is pending;
if `forced` is present, fail with `TooSoon` when `C < NextForced`;
otherwise record `PendingChange{scheduled_at := C, delay, next_authorities,
forced}` and, if forced, set `NextForced := effective_at + delay`
(= `C + 2 * delay`).  The state component of the result is the persisted
state after the call (unchanged on error). -/
def schedule_change (st : GrandpaState) (C : Nat) (next_authorities : List (Nat × Nat))
    (delay : Nat) (forced : Option Nat) : GrandpaState × Option SchedulerError :=
  if st.pendingChange.isSome then
    (st, some SchedulerError.ChangeAlreadyPending)
  else if forced.isSome ∧ C < st.nextForced.getD 0 then
    (st, some SchedulerError.TooSoon)
  else
    ({ pendingChange := some ⟨C, delay, next_authorities, forced⟩,
       nextForced := if forced.isSome then some (C + delay + delay) else st.nextForced,
       authorities := st.authorities }, none)

/-- The GRANDPA module's event (spec §6): `NewAuthorities` carries the new
authority set. -/
inductive GrandpaEvent where
  | NewAuthorities (authorities : List (Nat × Nat))
deriving DecidableEq, Repr

/-- Modelled from the spec: `Module::on_finalize` of the GRANDPA module
(implementation absent from the file set).  Per spec §4.3
`on_block_finalize`: if a PendingChange exists and
`block_number = scheduled_at + delay`, replace the authority set, clear the
pending change, and emit a block-header log entry carrying the new
authority list together with a `NewAuthorities` event; otherwise a no-op.
The result is `(state, header logs, events)`. -/
def on_finalize (st : GrandpaState) (block_number : Nat) :
    GrandpaState × List (List (Nat × Nat)) × List GrandpaEvent :=
  match st.pendingChange with
  | some pc =>
    if block_number = pc.scheduled_at + pc.delay then
      ({ pendingChange := none, nextForced := st.nextForced,
         authorities := pc.next_authorities },
       [pc.next_authorities], [GrandpaEvent.NewAuthorities pc.next_authorities])
    else (st, [], [])
  | none => (st, [], [])

/-- One call of the scheduler's external interface, for reasoning about
call sequences. -/
inductive SchedulerOp where
  | schedule (current : Nat) (next : List (Nat × Nat)) (delay : Nat) (forced : Option Nat)
  | finalize (block : Nat)
deriving DecidableEq, Repr

/-- Run a sequence of scheduler calls, keeping the persisted state. -/
def runOps (ops : List SchedulerOp) (st : GrandpaState) : GrandpaState :=
  match ops with
  | [] => st
  | SchedulerOp.schedule C next delay forced :: rest =>
    runOps rest (schedule_change st C next delay forced).1
  | SchedulerOp.finalize n :: rest =>
    runOps rest (on_finalize st n).1

/-! ### GRANDPA equivocation verifier

Modelled from spec §4.4; the implementation (`validate_unsigned` in
`srml/grandpa/src/lib.rs`) is absent from the file set, and the model is
checked against the shape asserted by `validate_unsigned_works` in
`srml/grandpa/src/tests.rs`. -/

/-- A finality vote: target hash and target number (spec §3). -/
structure GrandpaVote where
  target_hash : Nat
  target_number : Nat
deriving DecidableEq, Repr

/-- The message wrapper entering the signed payload (`Message::Prevote` /
`Message::Precommit`). -/
inductive GrandpaMessage where
  | Prevote (vote : GrandpaVote)
  | Precommit (vote : GrandpaVote)
deriving DecidableEq, Repr

/-- The signed payload: `(Message, round_number, set_id)`. -/
def SignedPayload : Type := GrandpaMessage × Nat × Nat

/-- `Equivocation` (spec §3): two signed votes by one identity in one
round.  The signature type is abstract. -/
structure GrandpaEquivocation (Sig : Type) where
  round_number : Nat
  identity : Nat
  first : GrandpaVote × Sig
  second : GrandpaVote × Sig

/-- `GrandpaEquivocationProof`: the reported equivocation with its set id
and round. -/
structure GrandpaEquivocationProof (Sig : Type) where
  set_id : Nat
  round : Nat
  equivocation : GrandpaEquivocation Sig

/-- The transaction-validity verdict returned to the pool (spec §6). -/
inductive TransactionValidity where
  | Valid (priority : Nat) (req prov : List (List Nat)) (longevity : Nat) (propagate : Bool)
  | Invalid (code : Nat)
deriving DecidableEq, Repr

/-- Modelled from the spec: `validate_unsigned` on a prevote-equivocation
report (implementation absent from the file set).  Per spec §4.4: rebuild
each signed payload as `(Message::from(vote), round_number, set_id)`,
verify both signatures under `identity` (signature verification lives in
the external crypto crate and is the parameter `verify`), require the two
votes to be structurally distinct, and return `Valid` with priority 10,
empty `requires`/`provides`, maximal longevity and `propagate = true`;
any failed check yields `Invalid`. -/
def validate_unsigned {Sig : Type}
    (verify : Sig → SignedPayload → Nat → Bool)
    (proof : GrandpaEquivocationProof Sig) : TransactionValidity :=
  let e := proof.equivocation
  let payload1 : SignedPayload := (GrandpaMessage.Prevote e.first.1, e.round_number, proof.set_id)
  let payload2 : SignedPayload := (GrandpaMessage.Prevote e.second.1, e.round_number, proof.set_id)
  if verify e.first.2 payload1 e.identity &&
      verify e.second.2 payload2 e.identity &&
      decide (e.first.1 ≠ e.second.1) then
    TransactionValidity.Valid 10 [] [] U64MAX true
  else
    TransactionValidity.Invalid 0

/-! ### Persisted pending-change representation (old and new format)

`OldStoredPendingChange` and the `Decode` impl of `StoredPendingChange`
live in the absent `srml/grandpa/src/lib.rs`; they are modelled from the
spec's data model (§3) and the behaviour asserted by the in-tree test
`new_decodes_from_old`, over the SCALE (parity-codec) wire format. -/

/-- SCALE compact encoding of an unsigned integer below `2 ^ 32` (the
`Compact<u32>` length prefix parity-codec puts before a `Vec`). -/
def compactEncode (n : Nat) : List Nat :=
  if n < 64 then [n * 4]
  else if n < 2 ^ 14 then [(n * 4 + 1) % 256, (n * 4 + 1) / 256]
  else if n < 2 ^ 30 then u32encode (n * 4 + 2)
  else 3 :: u32encode n

/-- SCALE compact decoding: the two low bits of the first byte select the
mode (single byte, two bytes, four bytes, or big mode carrying
`first / 4 + 4` payload bytes). -/
def compactDecode (input : List Nat) : Option (Nat × List Nat) :=
  match input with
  | [] => none
  | b :: rest =>
    if b % 4 = 0 then some (b / 4, rest)
    else if b % 4 = 1 then
      match rest with
      | [] => none
      | b1 :: rest1 => some ((b + 256 * b1) / 4, rest1)
    else if b % 4 = 2 then
      if 3 ≤ rest.length then some (fromLE (b :: rest.take 3) / 4, rest.drop 3) else none
    else
      if b / 4 + 4 ≤ rest.length then
        some (fromLE (rest.take (b / 4 + 4)), rest.drop (b / 4 + 4))
      else none

/-- Encoding of one `(AuthorityId, Weight)` pair; in the test harness the
authority id is a plain integer, modelled as a `u64` alongside the `u64`
weight. -/
def authPairEncode (p : Nat × Nat) : List Nat := u64encode p.1 ++ u64encode p.2

/-- Decoding of one `(AuthorityId, Weight)` pair. -/
def authPairDecode (input : List Nat) : Option ((Nat × Nat) × List Nat) :=
  match u64decode input with
  | none => none
  | some (a, r1) =>
    match u64decode r1 with
    | none => none
    | some (w, r2) => some ((a, w), r2)

/-- SCALE encoding of `Vec<(AuthorityId, Weight)>`: compact length prefix
followed by the element encodings. -/
def authVecEncode (xs : List (Nat × Nat)) : List Nat :=
  compactEncode xs.length ++ (xs.map authPairEncode).flatten

/-- Decode `count` consecutive `(AuthorityId, Weight)` pairs. -/
def authListDecode (count : Nat) (input : List Nat) :
    Option (List (Nat × Nat) × List Nat) :=
  match count with
  | 0 => some ([], input)
  | c + 1 =>
    match authPairDecode input with
    | none => none
    | some (p, r1) =>
      match authListDecode c r1 with
      | none => none
      | some (ps, r2) => some (p :: ps, r2)

/-- SCALE decoding of `Vec<(AuthorityId, Weight)>`. -/
def authVecDecode (input : List Nat) : Option (List (Nat × Nat) × List Nat) :=
  match compactDecode input with
  | none => none
  | some (n, rest) => authListDecode n rest

/-- Modelled from the spec: `OldStoredPendingChange` of the GRANDPA module
(implementation absent from the file set) — the pre-forced persisted
pending change with fields `scheduled_at`, `delay` (block numbers, `u32`
in the test) and `next_authorities`, and no `forced` field. -/
structure OldStoredPendingChange where
  scheduled_at : Nat
  delay : Nat
  next_authorities : List (Nat × Nat)
deriving DecidableEq, Repr

/-- Derived SCALE `Encode` of `OldStoredPendingChange`: the concatenation
of the field encodings (`u32`, `u32`, `Vec`). -/
def OldStoredPendingChange.encode (o : OldStoredPendingChange) : List Nat :=
  u32encode o.scheduled_at ++ u32encode o.delay ++ authVecEncode o.next_authorities

/-- Decode the old-format fields from the head of a stream. -/
def OldStoredPendingChange.decode (input : List Nat) :
    Option (OldStoredPendingChange × List Nat) :=
  match u32decode input with
  | none => none
  | some (s, r1) =>
    match u32decode r1 with
    | none => none
    | some (d, r2) =>
      match authVecDecode r2 with
      | none => none
      | some (auths, r3) => some (⟨s, d, auths⟩, r3)

/-- SCALE decoding of `Option<u32>`: byte `0` is `none`, byte `1` is
followed by the value. -/
def optionU32Decode (input : List Nat) : Option (Option Nat × List Nat) :=
  match input with
  | 0 :: rest => some (none, rest)
  | 1 :: rest =>
    match u32decode rest with
    | none => none
    | some (n, r) => some (some n, r)
  | _ => none

/-- Modelled from the spec: the custom `Decode` impl of
`StoredPendingChange` (implementation absent from the file set).  Per the
backward-compatibility test `new_decodes_from_old`, it first decodes the
old-format fields and then attempts to decode the trailing `Option`
forced field, falling back to `none` when the input is exhausted. -/
def StoredPendingChange.decode (input : List Nat) : Option StoredPendingChange :=
  match OldStoredPendingChange.decode input with
  | none => none
  | some (old, rest) =>
    let forced := match optionU32Decode rest with
      | some (f, _) => f
      | none => none
    some ⟨old.scheduled_at, old.delay, old.next_authorities, forced⟩

/-! ## Helper lemmas -/

theorem u64encode_length (n : Nat) : (u64encode n).length = 8 := rfl

theorem u32encode_length (n : Nat) : (u32encode n).length = 4 := rfl

theorem fromLE_u64encode (n : Nat) (h : n < 2 ^ 64) : fromLE (u64encode n) = n := by
  simp only [u64encode, fromLE]
  norm_num at h ⊢
  omega

theorem fromLE_u32encode (n : Nat) (h : n < 2 ^ 32) : fromLE (u32encode n) = n := by
  simp only [u32encode, fromLE]
  norm_num at h ⊢
  omega

theorem u64decode_append (n : Nat) (rest : List Nat) (h : n < 2 ^ 64) :
    u64decode (u64encode n ++ rest) = some (n, rest) := by
  have hlen : (u64encode n ++ rest).length = 8 + rest.length := by
    simp [u64encode_length]
  have htake : (u64encode n ++ rest).take 8 = u64encode n := by
    simpa [u64encode_length] using List.take_left (u64encode n) rest
  have hdrop : (u64encode n ++ rest).drop 8 = rest := by
    simpa [u64encode_length] using List.drop_left (u64encode n) rest
  simp [u64decode, hlen, htake, hdrop, fromLE_u64encode n h]

theorem u32decode_append (n : Nat) (rest : List Nat) (h : n < 2 ^ 32) :
    u32decode (u32encode n ++ rest) = some (n, rest) := by
  have hlen : (u32encode n ++ rest).length = 4 + rest.length := by
    simp [u32encode_length]
  have htake : (u32encode n ++ rest).take 4 = u32encode n := by
    simpa [u32encode_length] using List.take_left (u32encode n) rest
  have hdrop : (u32encode n ++ rest).drop 4 = rest := by
    simpa [u32encode_length] using List.drop_left (u32encode n) rest
  simp [u32decode, hlen, htake, hdrop, fromLE_u32encode n h]

theorem arrDecode_append (l rest : List Nat) (n : Nat) (h : l.length = n) :
    arrDecode n (l ++ rest) = some (l, rest) := by
  subst h
  simp [arrDecode, List.take_left, List.drop_left]

theorem u64decode_exact (n : Nat) (h : n < 2 ^ 64) : u64decode (u64encode n) = some (n, []) := by
  simpa using u64decode_append n [] h

/-! ## Claim theorems -/

/-- Claim C4: for every BabePreDigest whose VRF fields are well-formed
curve elements, decoding the encoding succeeds and returns the same
digest; and decoding fails whenever the 32 VRF-output bytes or the 64
proof bytes are not a valid point of the curve group. -/
theorem claim_C4_digest_codec_roundtrip (validOut validProof : List Nat → Bool) :
    (∀ d : BabePreDigest, d.wellFormed validOut validProof →
      BabePreDigest.decode validOut validProof (BabePreDigest.encode d) = some d) ∧
    (∀ input : List Nat, 112 ≤ input.length →
      (validOut (input.take 32) = false ∨ validProof ((input.drop 32).take 64) = false) →
      BabePreDigest.decode validOut validProof input = none) := by
  constructor
  · rintro ⟨⟨ob⟩, ⟨pb⟩, idx, slot⟩ ⟨h1, h2, h3, h4, h5, h6⟩
    simp only [BabePreDigest.wellFormed] at *
    have e1 : ∀ rest, arrDecode 32 (ob ++ rest) = some (ob, rest) :=
      fun rest => arrDecode_append ob rest 32 h1
    have e2 : ∀ rest, arrDecode 64 (pb ++ rest) = some (pb, rest) :=
      fun rest => arrDecode_append pb rest 64 h3
    have e3 : ∀ rest, u64decode (u64encode idx ++ rest) = some (idx, rest) :=
      fun rest => u64decode_append idx rest h5
    have e4 : u64decode (u64encode slot) = some (slot, []) := u64decode_exact slot h6
    simp only [BabePreDigest.encode, BabePreDigest.decode, authorityIndexEncode,
      authorityIndexDecode, List.append_assoc, e1, e2, e3, e4,
      VRFProof.from_bytes, VRFOutput.from_bytes, h1, h2, h3, h4, and_self, if_true]
  · intro input hlen hbad
    have h32 : arrDecode 32 input = some (input.take 32, input.drop 32) := by
      simp only [arrDecode]
      rw [if_pos (by omega)]
    have h64 : arrDecode 64 (input.drop 32) =
        some ((input.drop 32).take 64, (input.drop 32).drop 64) := by
      simp only [arrDecode]
      rw [if_pos (by simp; omega)]
    have hu1 : authorityIndexDecode ((input.drop 32).drop 64) =
        some (fromLE (((input.drop 32).drop 64).take 8), ((input.drop 32).drop 64).drop 8) := by
      simp only [authorityIndexDecode, u64decode]
      rw [if_pos (by simp; omega)]
    have hr : 8 ≤ (((input.drop 32).drop 64).drop 8).length := by
      simp
      omega
    have hu2 : u64decode (((input.drop 32).drop 64).drop 8) =
        some (fromLE ((((input.drop 32).drop 64).drop 8).take 8),
          (((input.drop 32).drop 64).drop 8).drop 8) := by
      simp only [u64decode]
      rw [if_pos hr]
    have hp64 : ((input.drop 32).take 64).length = 64 := by
      simp
      omega
    have ho32 : (input.take 32).length = 32 := by
      simp
      omega
    simp only [BabePreDigest.decode, h32, h64, hu1, hu2]
    rcases hbad with hbad | hbad
    · simp only [VRFProof.from_bytes]
      split <;> simp [VRFOutput.from_bytes, hbad]
    · simp [VRFProof.from_bytes, hbad]

/-- Witness for claim C4 at a concrete well-formed digest. -/
theorem claim_C4_witness :
    BabePreDigest.decode (fun _ => true) (fun _ => true)
        (BabePreDigest.encode ⟨⟨List.replicate 32 3⟩, ⟨List.replicate 64 4⟩, 9, 42⟩)
      = some ⟨⟨List.replicate 32 3⟩, ⟨List.replicate 64 4⟩, 9, 42⟩ :=
  (claim_C4_digest_codec_roundtrip (fun _ => true) (fun _ => true)).1 _
    ⟨by simp, rfl, by simp, rfl, by norm_num, by norm_num⟩

/-- Claim C5: process_inherent_digests is fatal (an assertion failure,
modelled as none) exactly when the number of decodable BABE-tagged
pre-runtime entries differs from one; with exactly one entry it folds
that entry's VRF output into the randomness beacon exactly once. -/
theorem claim_C5_exactly_one_predigest (blake2_256 : List Nat → List Nat)
    (logs : List DigestItem) (randomness : List Nat) :
    (process_inherent_digests blake2_256 logs randomness = none ↔
      (babeDigests logs).length ≠ 1) ∧
    (∀ e, babeDigests logs = [e] →
      process_inherent_digests blake2_256 logs randomness
        = some (deposit_vrf_output blake2_256 randomness e.1)) := by
  constructor
  · unfold process_inherent_digests
    cases hb : babeDigests logs with
    | nil => simp [processLoop]
    | cons e rest =>
      cases rest with
      | nil => simp [processLoop]
      | cons f rest2 => simp [processLoop]
  · intro e he
    unfold process_inherent_digests
    rw [he]
    simp [processLoop]

set_option maxRecDepth 4000 in
/-- Witness for claim C5: a digest list with exactly one decodable
BABE-tagged pre-runtime entry is processed into one fold of its VRF
output. -/
theorem claim_C5_witness :
    process_inherent_digests (fun l => l.take 32)
        [DigestItem.preRuntime BABE_ENGINE_ID (List.replicate 128 7 ++ u64encode 5)]
        (List.replicate 32 0)
      = some (deposit_vrf_output (fun l => l.take 32) (List.replicate 32 0)
          (List.replicate 32 7)) :=
  (claim_C5_exactly_one_predigest (fun l => l.take 32)
      [DigestItem.preRuntime BABE_ENGINE_ID (List.replicate 128 7 ++ u64encode 5)]
      (List.replicate 32 0)).2
    (List.replicate 32 7, List.replicate 64 7, List.replicate 32 7, 5) (by decide)

theorem srmlInlineDecode_none_of_short (input : List Nat) (h : input.length < 136) :
    srmlInlineDecode input = none := by
  simp only [srmlInlineDecode, arrDecode, u64decode]
  by_cases h32 : 32 ≤ input.length
  · simp only [if_pos h32]
    by_cases h64 : 64 ≤ (input.drop 32).length
    · simp only [if_pos h64]
      by_cases h96 : 32 ≤ ((input.drop 32).drop 64).length
      · simp only [if_pos h96]
        have h128 : ¬ 8 ≤ (((input.drop 32).drop 64).drop 32).length := by
          simp only [List.length_drop]
          omega
        simp only [if_neg h128]
      · simp only [if_neg h96]
    · simp only [if_neg h64]
  · simp only [if_neg h32]

/-- Claim C6 (code bug): the runtime's inline pre-digest decode expects a
32-byte public-key author field, while the digest codec encodes a
fixed-width integer authority index, so the codec's 112-byte encoding is
never accepted: the inline decode fails and the block hits the
one-pre-digest assertion. -/
theorem claim_C6_srml_rejects_codec_encoding (d : BabePreDigest)
    (blake2_256 : List Nat → List Nat) (randomness : List Nat)
    (h1 : d.vrf_output.bytes.length = 32) (h2 : d.proof.bytes.length = 64) :
    srmlInlineDecode (BabePreDigest.encode d) = none ∧
    process_inherent_digests blake2_256
      [DigestItem.preRuntime BABE_ENGINE_ID (BabePreDigest.encode d)] randomness = none := by
  have hlen : (BabePreDigest.encode d).length = 112 := by
    simp [BabePreDigest.encode, authorityIndexEncode, u64encode_length, h1, h2]
  have hdec : srmlInlineDecode (BabePreDigest.encode d) = none :=
    srmlInlineDecode_none_of_short _ (by omega)
  refine ⟨hdec, ?_⟩
  unfold process_inherent_digests babeDigests
  simp [DigestItem.as_pre_runtime, hdec, processLoop]

/-- Witness for claim C6 at the concrete failing input: the all-zero
well-formed digest whose encoding (112 bytes) the runtime rejects. -/
theorem claim_C6_witness :
    srmlInlineDecode (BabePreDigest.encode
        ⟨⟨List.replicate 32 0⟩, ⟨List.replicate 64 0⟩, 0, 0⟩) = none ∧
    process_inherent_digests (fun l => l)
      [DigestItem.preRuntime BABE_ENGINE_ID
        (BabePreDigest.encode ⟨⟨List.replicate 32 0⟩, ⟨List.replicate 64 0⟩, 0, 0⟩)]
      (List.replicate 32 0) = none :=
  claim_C6_srml_rejects_codec_encoding
    ⟨⟨List.replicate 32 0⟩, ⟨List.replicate 64 0⟩, 0, 0⟩ (fun l => l)
    (List.replicate 32 0) (by simp) (by simp)

/-- Claim C8: one fold step of the randomness accumulator hashes exactly
the 64-byte concatenation of the previous beacon value and the VRF
output, and nothing else. -/
theorem claim_C8_randomness_fold (blake2_256 : List Nat → List Nat)
    (randomness vrf_output : List Nat)
    (h1 : randomness.length = 32) (h2 : vrf_output.length = 32) :
    deposit_vrf_output blake2_256 randomness vrf_output
      = blake2_256 (randomness ++ vrf_output) ∧
    (randomness ++ vrf_output).length = 64 := by
  have d1 : (List.replicate 64 (0 : Nat)).drop 32 = List.replicate 32 (0 : Nat) := by
    simp
  have t1 : (randomness ++ List.replicate 32 (0 : Nat)).take 32 = randomness := by
    rw [← h1]
    exact List.take_left randomness _
  have t2 : (randomness ++ List.replicate 32 (0 : Nat)).drop 64 = [] := by
    apply List.drop_eq_nil_of_le
    simp [h1]
  constructor
  · unfold deposit_vrf_output copySlice
    rw [h1, h2]
    simp only [List.take_zero, List.nil_append, Nat.zero_add, d1, t1, t2]
    simp
  · simp [h1, h2]

/-- Witness for claim C8 at concrete 32-byte values. -/
theorem claim_C8_witness :
    deposit_vrf_output (fun l => l) (List.replicate 32 1) (List.replicate 32 2)
      = List.replicate 32 1 ++ List.replicate 32 2 := by
  have h := claim_C8_randomness_fold (fun l => l)
    (List.replicate 32 1) (List.replicate 32 2) (by simp) (by simp)
  simpa using h.1

/-- Claim C9: the slot duration is twice the timestamp module's minimum
block period, and the inherent check on a timestamp set call succeeds
exactly when the timestamp divided by the slot duration equals the slot
number carried under the babeslot inherent-data key; a mismatch is the
fatal error. -/
theorem claim_C9_slot_check (minimum_period timestamp seal_slot : Nat)
    (hp : 0 < minimum_period) (hb : 2 * minimum_period < 2 ^ 64) :
    slot_duration minimum_period = 2 * minimum_period ∧
    (check_inherent minimum_period (TimestampCall.set timestamp) (some seal_slot)
        = Except.ok () ↔ timestamp / (2 * minimum_period) = seal_slot) ∧
    (timestamp / (2 * minimum_period) ≠ seal_slot →
      check_inherent minimum_period (TimestampCall.set timestamp) (some seal_slot)
        = Except.error "timestamp set in block does not match slot in seal") := by
  have hs : slot_duration minimum_period = 2 * minimum_period := by
    unfold slot_duration saturatingMul64 U64MAX
    norm_num at hb ⊢
    omega
  refine ⟨hs, ?_, ?_⟩
  · simp only [check_inherent, hs]
    split
    · simp [*]
    · simp [*]
  · intro hne
    simp only [check_inherent, hs]
    rw [if_neg hne]

/-- Witness for claim C9 at a concrete period, timestamp and slot. -/
theorem claim_C9_witness :
    check_inherent 1 (TimestampCall.set 10) (some 5) = Except.ok () :=
  (claim_C9_slot_check 1 10 5 (by decide) (by norm_num)).2.1.mpr (by decide)

/-- Claim C1: for every scheduler state reached by a sequence of
schedule_change and on_finalize calls, a schedule_change invoked while a
PendingChange exists returns ChangeAlreadyPending — whatever the forced or
normal flavour of either request — and leaves the persisted state
unchanged.  (At most one PendingChange can ever exist: the persisted slot
is a single optional value.) -/
theorem claim_C1_single_pending_invariant (ops : List SchedulerOp) (st0 : GrandpaState)
    (C : Nat) (next : List (Nat × Nat)) (delay : Nat) (forced : Option Nat)
    (h : (runOps ops st0).pendingChange.isSome) :
    schedule_change (runOps ops st0) C next delay forced
      = (runOps ops st0, some SchedulerError.ChangeAlreadyPending) := by
  simp [schedule_change, h]

/-- Witness for claim C1: after one successful schedule_change, a second
one fails with ChangeAlreadyPending and changes nothing. -/
theorem claim_C1_witness :
    schedule_change
        (runOps [SchedulerOp.schedule 1 [(4, 1)] 1 none] ⟨none, none, [(1, 1)]⟩)
        2 [(5, 1)] 1 (some 0)
      = (runOps [SchedulerOp.schedule 1 [(4, 1)] 1 none] ⟨none, none, [(1, 1)]⟩,
         some SchedulerError.ChangeAlreadyPending) :=
  claim_C1_single_pending_invariant [SchedulerOp.schedule 1 [(4, 1)] 1 none]
    ⟨none, none, [(1, 1)]⟩ 2 [(5, 1)] 1 (some 0) (by decide)

/-- Claim C2: a successful forced schedule_change at block C with delay D
sets NextForced to C + 2D unconditionally; a forced request strictly
before NextForced fails with TooSoon (state unchanged); a normal request
is never subject to the cooldown; a forced request at block NextForced
with no pending change succeeds; and concretely a forced change with
delay 5 at block 1 gives NextForced = 11, with a second forced change
with delay 5 at block 11 succeeding and giving NextForced = 21. -/
theorem claim_C2_forced_cooldown (st : GrandpaState) (C : Nat)
    (next : List (Nat × Nat)) (delay : Nat) (f : Nat) :
    (st.pendingChange = none → st.nextForced.getD 0 ≤ C →
      schedule_change st C next delay (some f)
        = ({ pendingChange := some ⟨C, delay, next, some f⟩,
             nextForced := some (C + 2 * delay),
             authorities := st.authorities }, none)) ∧
    (∀ nf, st.pendingChange = none → st.nextForced = some nf → C < nf →
      schedule_change st C next delay (some f) = (st, some SchedulerError.TooSoon)) ∧
    (st.pendingChange = none → (schedule_change st C next delay none).2 = none) ∧
    ((schedule_change ⟨none, none, [(1, 1), (2, 1), (3, 1)]⟩ 1
        [(4, 1), (5, 1), (6, 1)] 5 (some 0)).1.nextForced = some 11 ∧
      (schedule_change
        (on_finalize
          (schedule_change ⟨none, none, [(1, 1), (2, 1), (3, 1)]⟩ 1
            [(4, 1), (5, 1), (6, 1)] 5 (some 0)).1 6).1
        11 [(5, 1), (6, 1), (7, 1)] 5 (some 0)).2 = none ∧
      (schedule_change
        (on_finalize
          (schedule_change ⟨none, none, [(1, 1), (2, 1), (3, 1)]⟩ 1
            [(4, 1), (5, 1), (6, 1)] 5 (some 0)).1 6).1
        11 [(5, 1), (6, 1), (7, 1)] 5 (some 0)).1.nextForced = some 21) := by
  refine ⟨?_, ?_, ?_, by decide⟩
  · intro hpc hnf
    have hlt : ¬ C < st.nextForced.getD 0 := by omega
    simp [schedule_change, hpc, hlt]
    omega
  · intro nf hpc hnf hC
    simp [schedule_change, hpc, hnf, hC]
  · intro hpc
    simp [schedule_change, hpc]

/-- Witness for claim C2: a forced request strictly before NextForced
fails with TooSoon and changes nothing. -/
theorem claim_C2_witness :
    schedule_change ⟨none, some 5, [(1, 1)]⟩ 3 [(2, 1)] 4 (some 0)
      = (⟨none, some 5, [(1, 1)]⟩, some SchedulerError.TooSoon) :=
  (claim_C2_forced_cooldown ⟨none, some 5, [(1, 1)]⟩ 3 [(2, 1)] 4 0).2.1 5
    rfl rfl (by decide)

/-- Claim C3: a PendingChange scheduled at block C with delay D is applied
exactly at the finalization of block C + D — authority set replaced by
next_authorities, PendingChange cleared, a header log carrying the new
authority list and a NewAuthorities event both emitted — and at no other
block; once applied it can never be applied again, and on_finalize with
no pending change or before the due block is a no-op. -/
theorem claim_C3_application_timing (st : GrandpaState) (C D : Nat)
    (next : List (Nat × Nat)) (f : Option Nat) (n : Nat) :
    (st.pendingChange = some ⟨C, D, next, f⟩ →
      on_finalize st (C + D)
        = ({ pendingChange := none, nextForced := st.nextForced, authorities := next },
           [next], [GrandpaEvent.NewAuthorities next])) ∧
    (st.pendingChange = some ⟨C, D, next, f⟩ → n ≠ C + D →
      on_finalize st n = (st, [], [])) ∧
    (st.pendingChange = none → on_finalize st n = (st, [], [])) ∧
    (st.pendingChange = some ⟨C, D, next, f⟩ → ∀ m,
      on_finalize (on_finalize st (C + D)).1 m
        = ((on_finalize st (C + D)).1, [], [])) := by
  refine ⟨?_, ?_, ?_, ?_⟩
  · intro h
    simp [on_finalize, h]
  · intro h hn
    simp [on_finalize, h, hn]
  · intro h
    simp [on_finalize, h]
  · intro h m
    simp [on_finalize, h]

/-- Witness for claim C3: the delayed change of the module's tests
(scheduled at block 1 with delay 1) is a no-op at block 1 and applied at
block 2. -/
theorem claim_C3_witness :
    on_finalize ⟨some ⟨1, 1, [(4, 1), (5, 1), (6, 1)], none⟩, none, [(1, 1), (2, 1), (3, 1)]⟩ 2
      = (⟨none, none, [(4, 1), (5, 1), (6, 1)]⟩,
         [[(4, 1), (5, 1), (6, 1)]],
         [GrandpaEvent.NewAuthorities [(4, 1), (5, 1), (6, 1)]]) :=
  (claim_C3_application_timing
      ⟨some ⟨1, 1, [(4, 1), (5, 1), (6, 1)], none⟩, none, [(1, 1), (2, 1), (3, 1)]⟩
      1 1 [(4, 1), (5, 1), (6, 1)] none 0).1 rfl

/-- Claim C7: validate_unsigned on an equivocation report returns Valid
with priority 10, empty requires and provides, maximal longevity and
propagate = true exactly when both signatures verify over their payloads
(Message(vote), round_number, set_id) under the proof's identity and the
two votes are structurally distinct; in every other case it returns
Invalid.  The verifier is a pure function of the proof: it mutates no
state and cannot panic. -/
theorem claim_C7_validate_unsigned {Sig : Type}
    (verify : Sig → SignedPayload → Nat → Bool)
    (proof : GrandpaEquivocationProof Sig) :
    (validate_unsigned verify proof
        = TransactionValidity.Valid 10 [] [] 18446744073709551615 true ↔
      (verify proof.equivocation.first.2
          (GrandpaMessage.Prevote proof.equivocation.first.1,
           proof.equivocation.round_number, proof.set_id)
          proof.equivocation.identity = true ∧
       verify proof.equivocation.second.2
          (GrandpaMessage.Prevote proof.equivocation.second.1,
           proof.equivocation.round_number, proof.set_id)
          proof.equivocation.identity = true ∧
       proof.equivocation.first.1 ≠ proof.equivocation.second.1)) ∧
    (¬ (verify proof.equivocation.first.2
          (GrandpaMessage.Prevote proof.equivocation.first.1,
           proof.equivocation.round_number, proof.set_id)
          proof.equivocation.identity = true ∧
        verify proof.equivocation.second.2
          (GrandpaMessage.Prevote proof.equivocation.second.1,
           proof.equivocation.round_number, proof.set_id)
          proof.equivocation.identity = true ∧
        proof.equivocation.first.1 ≠ proof.equivocation.second.1) →
      validate_unsigned verify proof = TransactionValidity.Invalid 0) := by
  have hmax : U64MAX = 18446744073709551615 := by norm_num [U64MAX]
  constructor
  · simp only [validate_unsigned]
    rw [hmax]
    split
    · rename_i hcond
      simp only [Bool.and_eq_true, decide_eq_true_eq] at hcond
      exact ⟨fun _ => ⟨hcond.1.1, hcond.1.2, hcond.2⟩, fun _ => rfl⟩
    · rename_i hcond
      simp only [Bool.and_eq_true, decide_eq_true_eq] at hcond
      exact ⟨fun habs => TransactionValidity.noConfusion habs,
             fun hc => absurd ⟨⟨hc.1, hc.2.1⟩, hc.2.2⟩ hcond⟩
  · intro hfail
    simp only [validate_unsigned]
    split
    · rename_i hcond
      simp only [Bool.and_eq_true, decide_eq_true_eq] at hcond
      exact absurd ⟨hcond.1.1, hcond.1.2, hcond.2⟩ hfail
    · rfl

/-- Witness for claim C7: a proof with two distinct correctly-signed votes
is Valid with priority 10 and maximal longevity. -/
theorem claim_C7_witness :
    validate_unsigned (fun _ _ _ => true)
        (⟨0, 0, ⟨0, 7, (⟨1, 1⟩, ()), (⟨2, 2⟩, ())⟩⟩ : GrandpaEquivocationProof Unit)
      = TransactionValidity.Valid 10 [] [] 18446744073709551615 true :=
  (claim_C7_validate_unsigned (fun _ _ _ => true)
      ⟨0, 0, ⟨0, 7, (⟨1, 1⟩, ()), (⟨2, 2⟩, ())⟩⟩).1.mpr ⟨rfl, rfl, by decide⟩

theorem compactDecode_append (n : Nat) (rest : List Nat) (h : n < 2 ^ 32) :
    compactDecode (compactEncode n ++ rest) = some (n, rest) := by
  unfold compactEncode
  split
  · rename_i h64
    have hm : n * 4 % 4 = 0 := by omega
    have hv : n * 4 / 4 = n := by omega
    simp [compactDecode, hm, hv]
  · rename_i h64
    split
    · rename_i h14
      have hm0 : ¬ (n * 4 + 1) % 256 % 4 = 0 := by omega
      have hm1 : (n * 4 + 1) % 256 % 4 = 1 := by omega
      have hv : ((n * 4 + 1) % 256 + 256 * ((n * 4 + 1) / 256)) / 4 = n := by omega
      simp [compactDecode, hm0, hm1, hv]
    · rename_i h14
      split
      · rename_i h30
        have hm0 : ¬ (n * 4 + 2) % 256 % 4 = 0 := by omega
        have hm1 : ¬ (n * 4 + 2) % 256 % 4 = 1 := by omega
        have hm2 : (n * 4 + 2) % 256 % 4 = 2 := by omega
        norm_num at h30
        simp only [u32encode, List.cons_append]
        simp [compactDecode, hm0, hm1, hm2]
        simp only [fromLE]
        omega
      · rename_i h30
        norm_num at h
        simp only [u32encode, List.cons_append]
        simp [compactDecode]
        simp only [fromLE]
        omega

theorem authPairDecode_append (p : Nat × Nat) (rest : List Nat)
    (h1 : p.1 < 2 ^ 64) (h2 : p.2 < 2 ^ 64) :
    authPairDecode (authPairEncode p ++ rest) = some (p, rest) := by
  obtain ⟨a, w⟩ := p
  have e1 : ∀ r, u64decode (u64encode a ++ r) = some (a, r) :=
    fun r => u64decode_append a r h1
  have e2 : ∀ r, u64decode (u64encode w ++ r) = some (w, r) :=
    fun r => u64decode_append w r h2
  simp [authPairEncode, authPairDecode, List.append_assoc, e1, e2]

theorem authListDecode_append (xs : List (Nat × Nat)) (rest : List Nat)
    (h : ∀ p ∈ xs, p.1 < 2 ^ 64 ∧ p.2 < 2 ^ 64) :
    authListDecode xs.length ((xs.map authPairEncode).flatten ++ rest)
      = some (xs, rest) := by
  induction xs with
  | nil => simp [authListDecode]
  | cons p tail ih =>
    have hp := h p (List.mem_cons_self p tail)
    have htail : ∀ q ∈ tail, q.1 < 2 ^ 64 ∧ q.2 < 2 ^ 64 :=
      fun q hq => h q (List.mem_cons_of_mem p hq)
    have e1 := authPairDecode_append p ((tail.map authPairEncode).flatten ++ rest) hp.1 hp.2
    simp only [List.map_cons, List.flatten_cons, List.length_cons, List.append_assoc,
      authListDecode, e1, ih htail]

theorem authVecDecode_append (xs : List (Nat × Nat)) (rest : List Nat)
    (hlen : xs.length < 2 ^ 32)
    (h : ∀ p ∈ xs, p.1 < 2 ^ 64 ∧ p.2 < 2 ^ 64) :
    authVecDecode (authVecEncode xs ++ rest) = some (xs, rest) := by
  simp only [authVecEncode, authVecDecode, List.append_assoc,
    compactDecode_append xs.length _ hlen, authListDecode_append xs rest h]

/-- Claim C10: decoding the encoding of any old-format stored pending
change as the new StoredPendingChange succeeds, yields forced = none and
preserves scheduled_at, delay and next_authorities. -/
theorem claim_C10_old_format_compat (o : OldStoredPendingChange)
    (h1 : o.scheduled_at < 2 ^ 32) (h2 : o.delay < 2 ^ 32)
    (h3 : o.next_authorities.length < 2 ^ 32)
    (h4 : ∀ p ∈ o.next_authorities, p.1 < 2 ^ 64 ∧ p.2 < 2 ^ 64) :
    StoredPendingChange.decode (OldStoredPendingChange.encode o)
      = some ⟨o.scheduled_at, o.delay, o.next_authorities, none⟩ := by
  have e1 : ∀ r, u32decode (u32encode o.scheduled_at ++ r) = some (o.scheduled_at, r) :=
    fun r => u32decode_append _ r h1
  have e2 : ∀ r, u32decode (u32encode o.delay ++ r) = some (o.delay, r) :=
    fun r => u32decode_append _ r h2
  have e3 : authVecDecode (authVecEncode o.next_authorities) = some (o.next_authorities, []) := by
    have := authVecDecode_append o.next_authorities [] h3 h4
    simpa using this
  simp [StoredPendingChange.decode, OldStoredPendingChange.decode,
    OldStoredPendingChange.encode, List.append_assoc, e1, e2, e3, optionU32Decode]

/-- Witness for claim C10 at the concrete old-format value used by the
module's test. -/
theorem claim_C10_witness :
    StoredPendingChange.decode
        (OldStoredPendingChange.encode ⟨5, 100, [(1, 5), (2, 10), (3, 2)]⟩)
      = some ⟨5, 100, [(1, 5), (2, 10), (3, 2)], none⟩ :=
  claim_C10_old_format_compat ⟨5, 100, [(1, 5), (2, 10), (3, 2)]⟩
    (by norm_num) (by norm_num) (by norm_num) (by decide)

end Substrate
